import Mathlib

/-!
Shallow embedding of the pass-detection core of `src/webspace.py`
(CoreaAsura/webspace-analyzer) and proofs about it.

Modelling conventions:
* Instants are natural numbers of seconds; the 1-minute grid of
  `detect_pass_pairs` (line 58) steps by 60.
* Python floats are modelled as rationals; `x ** 0.5` (line 49) is an
  abstract numeric square-root routine `sq : ℚ → ℚ` carried in the
  configuration, and statements about the velocity magnitude are made on
  the exact squared quantity.
* The skyfield propagation stack is an oracle `propag` mapping the two
  element lines, the observer ground point and the instant to either
  `none` (an exception reached the `except: continue` of line 97) or a
  `PropOut` whose individually fallible fields are `Option`s.
* `ts.now()` is a wall-clock read; each read is modelled by drawing the
  next value of a `clock` oracle, indexed by the number of prior reads.
* The scan state additionally records, for each instant at which a slant
  range was computed, which observer ground point was used (`log`), and
  the loop-local variables `lat`/`lon` that lines 69-70 reassign
  (`latVar`/`lonVar`).
-/

namespace Webspace

/-- Result of Python `round_val` (src/webspace.py lines 40-44): a rounded
rational, or the empty string on failure. -/
inductive RVal where
  | num (q : ℚ)
  | empty
deriving DecidableEq

/-- Rounding of a rational to the nearest integer, ties to even — the
rounding Python's built-in `round` performs. -/
def roundHalfEven (x : ℚ) : ℤ :=
  if x - ⌊x⌋ < 1/2 then ⌊x⌋
  else if 1/2 < x - ⌊x⌋ then ⌊x⌋ + 1
  else if ⌊x⌋ % 2 = 0 then ⌊x⌋ else ⌊x⌋ + 1

/-- Rounding to 3 decimal places, as `round(val, 3)` does. -/
def round3 (q : ℚ) : ℚ := (roundHalfEven (q * 1000) : ℚ) / 1000

/-- Python `round_val` (lines 40-44): `round(val, 3)`, with the bare
`except` returning `""` when the value cannot be rounded.  The argument is
`none` when the value is un-computable. -/
def round_val (v : Option ℚ) : RVal :=
  match v with
  | some q => RVal.num (round3 q)
  | none => RVal.empty

/-- A velocity vector, components in km/s (skyfield `velocity.km_per_s`,
axes of the Earth-centered inertial frame). -/
structure Vec3 where
  x : ℚ
  y : ℚ
  z : ℚ
deriving DecidableEq

/-- Squared Euclidean norm of a vector. -/
def normSq (v : Vec3) : ℚ := v.x ^ 2 + v.y ^ 2 + v.z ^ 2

/-- Dot product of two vectors. -/
def dot (a b : Vec3) : ℚ := a.x * b.x + a.y * b.y + a.z * b.z

/-- The quantity under the square root at line 49 of the source:
`v[0]**2 + v[1]**2`, i.e. the squares of the FIRST TWO components of the
inertial velocity vector. -/
def horizSpeedSq (v : Vec3) : ℚ := v.x ^ 2 + v.y ^ 2

/-- Written from the spec's words, for comparison with `horizSpeedSq`:
squared magnitude of the velocity vector projected onto the plane
perpendicular to local vertical, where local vertical at the satellite is
the radial direction `p` (its Earth-centered position vector). -/
def specHorizSpeedSq (p v : Vec3) : ℚ := normSq v - (dot p v) ^ 2 / normSq p

/-- Python `get_horizontal_velocity` (lines 46-51): on success reports
`round((v[0]**2 + v[1]**2)**0.5, 3)` where `sq` is the numeric square-root
routine; the bare `except` degrades the field to `""`. -/
def get_horizontal_velocity (sq : ℚ → ℚ) (v : Option Vec3) : RVal :=
  match v with
  | some w => RVal.num (round3 (sq (horizSpeedSq w)))
  | none => RVal.empty

/-- An observer ground point, as built by `wgs84.latlon` (line 55). -/
structure Observer where
  lat : ℚ
  lon : ℚ
  elevation_m : ℚ
deriving DecidableEq

/-- `wgs84.latlon(lat, lon, elevation_m)`: the ground point determined by
the arguments at construction time. -/
def wgs84latlon (lat lon elev : ℚ) : Observer := ⟨lat, lon, elev⟩

/-- What the propagation stack yields for one instant of the scan loop
(lines 65-72) when no exception escapes to the loop's `except`:
the slant range `dist_km`, and the individually fallible derived values
(sub-point latitude/longitude/altitude and the velocity vector), each
`none` when its own computation fails. -/
structure PropOut where
  dist_km : ℚ
  subLat : Option ℚ
  subLon : Option ℚ
  subAlt : Option ℚ
  velVec : Option Vec3
deriving DecidableEq

/-- A PassEvent: the dict appended at lines 77-85 (Entry) or 88-96 (Exit).
Entry and Exit dicts are structurally identical up to key names. -/
structure Event where
  name : String
  time_str : String
  lat : RVal
  lon : RVal
  alt : RVal
  vel : RVal
  instant : Nat
deriving DecidableEq

/-- The mutable state of the scan loop of `detect_pass_pairs`
(lines 61-98): the two event lists, the boolean `inside`, the loop-local
`lat`/`lon` variables that lines 69-70 reassign, and an instrumentation
log recording which observer ground point each slant-range computation
used. -/
structure ScanState where
  entries : List Event
  exits : List Event
  inside : Bool
  latVar : RVal
  lonVar : RVal
  log : List (Observer × Nat)
deriving DecidableEq

/-- Configuration of one `detect_pass_pairs` call (line 53):
its arguments, the wall-clock value `ts.now()` returned for this call, and
the external numeric routines. -/
structure DetectCfg where
  sq : ℚ → ℚ
  fmt : Nat → String
  propag : String → String → Observer → Nat → Option PropOut
  name : String
  l1 : String
  l2 : String
  hours : Nat
  radius_km : ℚ
  lat : ℚ
  lon : ℚ
  now : Nat

/-- The observer ground point built once, before the scan loop, at line 55:
`wgs84.latlon(lat, lon, elevation_m=38)` from the caller-supplied
coordinates. -/
def obsOf (cfg : DetectCfg) : Observer := wgs84latlon cfg.lat cfg.lon 38

/-- The loop state just before the first iteration (line 61); the local
`lat`/`lon` still hold the caller-supplied coordinates. -/
def initState (cfg : DetectCfg) : ScanState :=
  { entries := [], exits := [], inside := false,
    latVar := RVal.num cfg.lat, lonVar := RVal.num cfg.lon, log := [] }

/-- The event dict built at lines 77-85 / 88-96 for instant `t`. -/
def evAt (cfg : DetectCfg) (p : PropOut) (t : Nat) : Event :=
  { name := cfg.name, time_str := cfg.fmt t,
    lat := round_val p.subLat, lon := round_val p.subLon,
    alt := round_val p.subAlt,
    vel := get_horizontal_velocity cfg.sq p.velVec, instant := t }

/-- One iteration of the scan loop (lines 63-98).  A `none` propagation
outcome is the `except: continue` path: the iteration changes nothing.
Otherwise lines 69-70 reassign the loop-local `lat`/`lon`, the slant range
is compared against the radius — entry on `dist_km <= radius_km` from
outside (line 75), exit on `dist_km > radius_km` from inside (line 86) —
and the matching event is appended. -/
def scanStep (cfg : DetectCfg) (observer : Observer) (s : ScanState) (t : Nat) : ScanState :=
  match cfg.propag cfg.l1 cfg.l2 observer t with
  | none => s
  | some p =>
    let s1 : ScanState :=
      { s with latVar := round_val p.subLat, lonVar := round_val p.subLon,
               log := s.log ++ [(observer, t)] }
    if s.inside = false ∧ p.dist_km ≤ cfg.radius_km then
      { s1 with inside := true, entries := s.entries ++ [evAt cfg p t] }
    else if s.inside = true ∧ cfg.radius_km < p.dist_km then
      { s1 with inside := false, exits := s.exits ++ [evAt cfg p t] }
    else s1

/-- The `i`-th grid instant: `now + timedelta(minutes=i)` in seconds. -/
def gridTime (now i : Nat) : Nat := now + 60 * i

/-- The time grid of line 58: `hours * 60` instants, one minute apart,
the first equal to `now`. -/
def timesGrid (now hours : Nat) : List Nat :=
  (List.range (hours * 60)).map (gridTime now)

/-- The scan state after the first `n` grid instants have been processed
(a prefix of the loop of lines 63-98). -/
def runScanAux (cfg : DetectCfg) (n : Nat) : ScanState :=
  ((List.range n).map (gridTime cfg.now)).foldl (scanStep cfg (obsOf cfg)) (initState cfg)

/-- The full scan: the loop of lines 63-98 run over the whole time grid,
with the observer constructed once before the loop. -/
def runScan (cfg : DetectCfg) : ScanState :=
  (timesGrid cfg.now cfg.hours).foldl (scanStep cfg (obsOf cfg)) (initState cfg)

/-- One completed pass row as assembled at lines 103-116. -/
structure PassRecord where
  common_name : String
  start_time : String
  start_lat : RVal
  start_lon : RVal
  start_alt : RVal
  start_vel : RVal
  stop_time : String
  stop_lat : RVal
  stop_lon : RVal
  stop_alt : RVal
  stop_vel : RVal
  duration_sec : ℤ
deriving DecidableEq

/-- The row built from one entry/exit pair (lines 102-116); the duration
is `int((exit - entry).total_seconds())`, exact here because both
instants lie on the same 1-minute grid. -/
def mkRecord (ent ext : Event) : PassRecord :=
  { common_name := ent.name,
    start_time := ent.time_str, start_lat := ent.lat, start_lon := ent.lon,
    start_alt := ent.alt, start_vel := ent.vel,
    stop_time := ext.time_str, stop_lat := ext.lat, stop_lon := ext.lon,
    stop_alt := ext.alt, stop_vel := ext.vel,
    duration_sec := (ext.instant : ℤ) - (ent.instant : ℤ) }

/-- Positional pairing of lines 100-102: `zip(entries, exits)`. -/
def pairPasses (entries exits : List Event) : List PassRecord :=
  (entries.zip exits).map (fun p => mkRecord p.1 p.2)

/-- `detect_pass_pairs` (lines 53-118): scan the grid, then pair the
Nth entry with the Nth exit. -/
def detect_pass_pairs (cfg : DetectCfg) : List PassRecord :=
  pairPasses (runScan cfg).entries (runScan cfg).exits

/-- Rendering of a rational in a table cell. -/
def ratStr (q : ℚ) : String :=
  if q.den = 1 then toString q.num else toString q.num ++ "/" ++ toString q.den

/-- Rendering of a rounded value in a table cell: an un-computable value
renders as the empty string. -/
def cell (v : RVal) : String :=
  match v with
  | RVal.num q => ratStr q
  | RVal.empty => ""

/-- The column names of the DataFrame built at lines 177-182 of the
source, in order. -/
def df_columns : List String :=
  ["Common Name", "Start Time (LCLG)", "Start Tgt CBF Lat (deg)",
   "Start Tgt CBF Lon (deg)", "Start Tgt CBF Alt (km)",
   "Start LH HorizVel (km/sec)", "Stop Time (LCLG)",
   "Stop Tgt CBF Lat (deg)", "Stop Tgt CBF Lon (deg)",
   "Stop Tgt CBF Alt (km)", "Stop LH HorizVel (km/sec)", "Duration (sec)"]

/-- Written from the spec's words, for comparison with `df_columns`: the
column names the spec asserts for the output table. -/
def claimed_columns : List String :=
  ["Common Name", "Start Time (local)", "Start Latitude (deg)",
   "Start Longitude (deg)", "Start Altitude (km)",
   "Start Horizontal Velocity (km/s)", "Stop Time (local)",
   "Stop Latitude (deg)", "Stop Longitude (deg)", "Stop Altitude (km)",
   "Stop Horizontal Velocity (km/s)", "Duration (sec)"]

/-- The cells of one row, in column order (the dict of lines 103-116
projected onto `df_columns`). -/
def rowCells (r : PassRecord) : List String :=
  [r.common_name, r.start_time, cell r.start_lat, cell r.start_lon,
   cell r.start_alt, cell r.start_vel, r.stop_time, cell r.stop_lat,
   cell r.stop_lon, cell r.stop_alt, cell r.stop_vel,
   toString r.duration_sec]

/-- The DataFrame of lines 177-182 as a header row followed by one row of
cells per PassRecord. -/
def mkTable (rows : List PassRecord) : List (List String) :=
  df_columns :: rows.map rowCells

/-- One CSV line: comma-joined cells plus the line terminator. -/
def csvLine (cs : List String) : String := String.intercalate "," cs ++ "\n"

/-- `df.to_csv(index=False)` (line 187): the header line followed by one
line per row. -/
def to_csv (rows : List PassRecord) : String :=
  ((mkTable rows).map csvLine).foldr (fun a b => a ++ b) ""

/-- Validity test of the batch loop (lines 169-172): the entry must
decompose into exactly 3 non-empty trimmed lines.  A batch entry is
modelled as that decomposition, i.e. the list
`[line.strip() for line in tle_text.splitlines() if line.strip()]`. -/
def validTLE (lines : List String) : Bool := lines.length == 3

/-- Configuration of one batch run (module code, lines 163-175): the
shared observer coordinates, radius and horizon read from the UI, plus the
external routines and the wall clock.  `clock k` is the value the `k`-th
`ts.now()` read returns. -/
structure BatchCfg where
  sq : ℚ → ℚ
  fmt : Nat → String
  propag : String → String → Observer → Nat → Option PropOut
  clock : Nat → Nat
  hours : Nat
  radius_km : ℚ
  lat : ℚ
  lon : ℚ

/-- The detector configuration the batch loop builds for one validated
element set; `now` is the wall-clock value this call's `ts.now()` read
returned. -/
def mkDetectCfg (b : BatchCfg) (nm l1 l2 : String) (now : Nat) : DetectCfg :=
  { sq := b.sq, fmt := b.fmt, propag := b.propag, name := nm, l1 := l1,
    l2 := l2, hours := b.hours, radius_km := b.radius_km, lat := b.lat,
    lon := b.lon, now := now }

/-- One iteration of the batch loop (lines 168-175), consuming one entry
already decomposed into its stripped non-empty lines: on exactly 3 lines
run the detector (whose internal `ts.now()` performs the next wall-clock
read) and append its rows, otherwise warn and skip.  The second component
accumulates the values the successive `ts.now()` reads returned. -/
def batchStep (b : BatchCfg) (acc : List PassRecord × List Nat) (tle_lines : List String) :
    List PassRecord × List Nat :=
  match tle_lines with
  | [nm, l1, l2] =>
      (acc.1 ++ detect_pass_pairs (mkDetectCfg b nm l1 l2 (b.clock acc.2.length)),
       acc.2 ++ [b.clock acc.2.length])
  | _ => acc

/-- The whole batch loop (lines 163-175): fold over the registered element
sets, concatenating all pass rows; also returns the list of wall-clock
values the per-satellite `ts.now()` reads returned, in call order. -/
def runBatch (b : BatchCfg) (tle_list : List (List String)) : List PassRecord × List Nat :=
  tle_list.foldl (batchStep b) ([], [])

/-- A rounded value is quantized to 3 decimal places (or empty): when it
is a number `q`, `q * 1000` is an integer. -/
def qok : RVal → Prop
  | RVal.num q => (q * 1000).den = 1
  | RVal.empty => True

lemma round3_den (q : ℚ) : (round3 q * 1000).den = 1 := by
  unfold round3
  rw [div_mul_cancel₀ _ (by norm_num : (1000 : ℚ) ≠ 0)]
  exact Rat.den_intCast _

lemma round3_zero : round3 0 = 0 := by
  unfold round3 roundHalfEven
  norm_num

lemma qok_round_val (v : Option ℚ) : qok (round_val v) := by
  cases v with
  | none => trivial
  | some q => exact round3_den q

lemma qok_ghv (sq : ℚ → ℚ) (v : Option Vec3) : qok (get_horizontal_velocity sq v) := by
  cases v with
  | none => trivial
  | some w => exact round3_den _

lemma scanStep_none (cfg : DetectCfg) (obs : Observer) (s : ScanState) (t : Nat)
    (hp : cfg.propag cfg.l1 cfg.l2 obs t = none) :
    scanStep cfg obs s t = s := by
  unfold scanStep
  rw [hp]

/-- C2: for a sample whose slant range is exactly the configured radius,
the detector classifies the sample as inside — the state after the step is
inside; if the state was outside the step emits exactly the Entry event
(entry comparison inclusive), and if the state was inside the step emits
no Exit (exit comparison strict) and no Entry either. -/
theorem boundary_inclusive (cfg : DetectCfg) (s : ScanState) (t : Nat) (p : PropOut)
    (hp : cfg.propag cfg.l1 cfg.l2 (obsOf cfg) t = some p)
    (hd : p.dist_km = cfg.radius_km) :
    (scanStep cfg (obsOf cfg) s t).inside = true
    ∧ (scanStep cfg (obsOf cfg) s t).exits = s.exits
    ∧ (s.inside = false →
        (scanStep cfg (obsOf cfg) s t).entries = s.entries ++ [evAt cfg p t])
    ∧ (s.inside = true → (scanStep cfg (obsOf cfg) s t).entries = s.entries) := by
  unfold scanStep
  rw [hp]
  cases hs : s.inside <;> simp [hs, hd]

/-- Propagation outcome used by the `boundary_inclusive` witness: slant
range exactly at the radius. -/
def pB : PropOut :=
  { dist_km := 100, subLat := none, subLon := none, subAlt := none, velVec := none }

/-- Concrete detector configuration whose propagator always reports slant
range 100 km, equal to the 100 km radius. -/
def cfgB : DetectCfg :=
  { sq := id, fmt := fun _ => "", propag := fun _ _ _ _ => some pB, name := "SAT",
    l1 := "1", l2 := "2", hours := 1, radius_km := 100, lat := 0, lon := 0, now := 0 }

theorem boundary_inclusive_witness :
    (scanStep cfgB (obsOf cfgB) (initState cfgB) 0).inside = true
    ∧ (scanStep cfgB (obsOf cfgB) (initState cfgB) 0).exits = (initState cfgB).exits
    ∧ ((initState cfgB).inside = false →
        (scanStep cfgB (obsOf cfgB) (initState cfgB) 0).entries
          = (initState cfgB).entries ++ [evAt cfgB pB 0])
    ∧ ((initState cfgB).inside = true →
        (scanStep cfgB (obsOf cfgB) (initState cfgB) 0).entries = (initState cfgB).entries) :=
  boundary_inclusive cfgB (initState cfgB) 0 pB rfl rfl

/-- C5: a per-sample propagation/numeric failure is recovered locally —
when the propagation of instant `t` fails, that iteration leaves the whole
scan state unchanged (in particular `inside` and the event lists), the
scan over the remaining instants continues exactly as if `t` were skipped,
and an individually failing derived field (`round_val`,
`get_horizontal_velocity`) degrades to the empty value instead of
aborting. -/
theorem failure_recovered_locally (cfg : DetectCfg) (s : ScanState) (t : Nat)
    (ts : List Nat) (hp : cfg.propag cfg.l1 cfg.l2 (obsOf cfg) t = none) :
    scanStep cfg (obsOf cfg) s t = s
    ∧ List.foldl (scanStep cfg (obsOf cfg)) s (t :: ts)
        = List.foldl (scanStep cfg (obsOf cfg)) s ts
    ∧ round_val none = RVal.empty
    ∧ get_horizontal_velocity cfg.sq none = RVal.empty := by
  have h1 : scanStep cfg (obsOf cfg) s t = s := scanStep_none cfg (obsOf cfg) s t hp
  exact ⟨h1, by rw [List.foldl_cons, h1], rfl, rfl⟩

/-- Concrete detector configuration whose propagator always fails. -/
def cfgF : DetectCfg :=
  { sq := id, fmt := fun _ => "", propag := fun _ _ _ _ => none, name := "SAT",
    l1 := "1", l2 := "2", hours := 1, radius_km := 100, lat := 0, lon := 0, now := 0 }

theorem failure_recovered_locally_witness :
    scanStep cfgF (obsOf cfgF) (initState cfgF) 0 = initState cfgF
    ∧ List.foldl (scanStep cfgF (obsOf cfgF)) (initState cfgF) (0 :: [60])
        = List.foldl (scanStep cfgF (obsOf cfgF)) (initState cfgF) [60]
    ∧ round_val none = RVal.empty
    ∧ get_horizontal_velocity cfgF.sq none = RVal.empty :=
  failure_recovered_locally cfgF (initState cfgF) 0 [60] rfl

/-- C9 amended: the reported horizontal velocity is computed from the
first two components of the inertial velocity vector — it equals the
magnitude of the velocity projected onto the plane perpendicular to the
inertial z-axis, which agrees with the spec's plane perpendicular to local
vertical only when the position vector `p` is parallel to the z-axis. -/
theorem horizontal_velocity_inertial (v p : Vec3) (c : ℚ) (hc : c ≠ 0)
    (hpz : p = ⟨0, 0, c⟩) :
    horizSpeedSq v = normSq v - dot ⟨0, 0, 1⟩ v ^ 2 / normSq ⟨0, 0, 1⟩
    ∧ specHorizSpeedSq p v = horizSpeedSq v
    ∧ (∀ (f : ℚ → ℚ) (w : Vec3),
        get_horizontal_velocity f (some w) = RVal.num (round3 (f (horizSpeedSq w)))) := by
  subst hpz
  refine ⟨?_, ?_, fun f w => rfl⟩
  · simp only [horizSpeedSq, normSq, dot]
    norm_num
  · have h2 : c ^ 2 ≠ 0 := pow_ne_zero 2 hc
    simp only [specHorizSpeedSq, normSq, dot, horizSpeedSq]
    field_simp
    ring

theorem horizontal_velocity_inertial_witness :
    horizSpeedSq ⟨3, 4, 12⟩
      = normSq ⟨3, 4, 12⟩ - dot ⟨0, 0, 1⟩ ⟨3, 4, 12⟩ ^ 2 / normSq ⟨0, 0, 1⟩
    ∧ specHorizSpeedSq ⟨0, 0, 2⟩ ⟨3, 4, 12⟩ = horizSpeedSq ⟨3, 4, 12⟩
    ∧ (∀ (f : ℚ → ℚ) (w : Vec3),
        get_horizontal_velocity f (some w) = RVal.num (round3 (f (horizSpeedSq w)))) :=
  horizontal_velocity_inertial ⟨3, 4, 12⟩ ⟨0, 0, 2⟩ 2 (by norm_num) rfl

/-- C6 counterexample: the output table's columns are not the names the
claim lists — already the second column is `Start Time (LCLG)`, not
`Start Time (local)` — and the CSV header row of the empty table is not
the comma-joined claimed names. -/
theorem table_columns_cex :
    df_columns ≠ claimed_columns
    ∧ df_columns[1]? = some "Start Time (LCLG)"
    ∧ claimed_columns[1]? = some "Start Time (local)"
    ∧ to_csv [] ≠ String.intercalate "," claimed_columns ++ "\n" := by
  refine ⟨by decide, by decide, by decide, ?_⟩
  show csvLine df_columns ++ "" ≠ _
  decide

/-- C6 amended: the output table has exactly the twelve columns
`Common Name, Start Time (LCLG), Start Tgt CBF Lat (deg), Start Tgt CBF
Lon (deg), Start Tgt CBF Alt (km), Start LH HorizVel (km/sec), Stop Time
(LCLG), Stop Tgt CBF Lat (deg), Stop Tgt CBF Lon (deg), Stop Tgt CBF Alt
(km), Stop LH HorizVel (km/sec), Duration (sec)`, in that order, one row
per PassRecord, and the CSV serialization starts with a header row
matching these column names verbatim. -/
theorem table_columns (rows : List PassRecord) :
    (mkTable rows).head? = some df_columns
    ∧ (mkTable rows).length = rows.length + 1
    ∧ df_columns.length = 12
    ∧ (∀ cs ∈ mkTable rows, cs.length = 12)
    ∧ to_csv rows
        = String.intercalate "," df_columns ++ "\n"
          ++ ((rows.map rowCells).map csvLine).foldr (fun a b => a ++ b) "" := by
  refine ⟨rfl, by simp [mkTable], rfl, ?_, rfl⟩
  intro cs hcs
  rcases List.mem_cons.mp hcs with h | h
  · subst h; rfl
  · rcases List.mem_map.mp h with ⟨r, _, rfl⟩
    rfl

/-- Row used by the `table_columns` witness. -/
def rW6 : PassRecord :=
  { common_name := "SAT", start_time := "", start_lat := RVal.empty,
    start_lon := RVal.empty, start_alt := RVal.empty, start_vel := RVal.empty,
    stop_time := "", stop_lat := RVal.empty, stop_lon := RVal.empty,
    stop_alt := RVal.empty, stop_vel := RVal.empty, duration_sec := 60 }

theorem table_columns_witness :
    (mkTable [rW6]).head? = some df_columns
    ∧ (mkTable [rW6]).length = 1 + 1
    ∧ (rowCells rW6).length = 12 :=
  ⟨(table_columns [rW6]).1, (table_columns [rW6]).2.1,
   (table_columns [rW6]).2.2.2.1 (rowCells rW6) (by simp [mkTable])⟩

/-- C9 counterexample: for a satellite over position (1,0,0) with inertial
velocity (0,0,1), local vertical is the x-axis and the whole velocity is
horizontal — the spec's projected squared magnitude is 1 — yet the code's
`v[0]**2 + v[1]**2` is 0, so the reported speed is 0, not 1. -/
theorem horizontal_velocity_cex :
    horizSpeedSq ⟨0, 0, 1⟩ = 0
    ∧ specHorizSpeedSq ⟨1, 0, 0⟩ ⟨0, 0, 1⟩ = 1
    ∧ (0 : ℚ) ≠ 1
    ∧ get_horizontal_velocity id (some ⟨0, 0, 1⟩) = RVal.num 0 := by
  refine ⟨by norm_num [horizSpeedSq], ?_, by norm_num, ?_⟩
  · norm_num [specHorizSpeedSq, normSq, dot]
  · show RVal.num (round3 (id (horizSpeedSq ⟨0, 0, 1⟩))) = RVal.num 0
    norm_num [horizSpeedSq, round3_zero]

/-- Bookkeeping invariant of the scan loop at bound `b`: every stored
instant is below `b` and lies on the 1-minute grid; the entry/exit counts
differ exactly by the `inside` flag; positionally paired instants
interleave strictly; every stored field is 3-decimal-quantized or empty;
every logged slant-range computation used the pre-loop observer. -/
structure ScanInv (cfg : DetectCfg) (b : Nat) (s : ScanState) : Prop where
  len : s.entries.length = s.exits.length + cond s.inside 1 0
  entOK : ∀ e ∈ s.entries, e.instant < b ∧ (∃ i, e.instant = cfg.now + 60 * i)
            ∧ qok e.lat ∧ qok e.lon ∧ qok e.alt ∧ qok e.vel
  extOK : ∀ e ∈ s.exits, e.instant < b ∧ (∃ i, e.instant = cfg.now + 60 * i)
            ∧ qok e.lat ∧ qok e.lon ∧ qok e.alt ∧ qok e.vel
  pairLt : ∀ (k : Nat) (e x : Event), s.entries[k]? = some e → s.exits[k]? = some x →
            e.instant < x.instant
  interLt : ∀ (k : Nat) (x e : Event), s.exits[k]? = some x → s.entries[k + 1]? = some e →
            x.instant < e.instant
  logObs : ∀ q ∈ s.log, q.1 = obsOf cfg

lemma inv_mono (cfg : DetectCfg) {b b' : Nat} {s : ScanState} (hbb : b ≤ b')
    (h : ScanInv cfg b s) : ScanInv cfg b' s :=
  ⟨h.len,
   fun e he => ⟨lt_of_lt_of_le (h.entOK e he).1 hbb, (h.entOK e he).2⟩,
   fun e he => ⟨lt_of_lt_of_le (h.extOK e he).1 hbb, (h.extOK e he).2⟩,
   h.pairLt, h.interLt, h.logObs⟩

lemma inv_init (cfg : DetectCfg) : ScanInv cfg cfg.now (initState cfg) := by
  refine ⟨rfl, ?_, ?_, ?_, ?_, ?_⟩ <;>
    simp [initState]

lemma evAt_qok (cfg : DetectCfg) (p : PropOut) (t : Nat) :
    qok (evAt cfg p t).lat ∧ qok (evAt cfg p t).lon ∧ qok (evAt cfg p t).alt
      ∧ qok (evAt cfg p t).vel :=
  ⟨qok_round_val _, qok_round_val _, qok_round_val _, qok_ghv _ _⟩

lemma scanStep_entry (cfg : DetectCfg) (obs : Observer) (s : ScanState) (t : Nat)
    (p : PropOut) (hp : cfg.propag cfg.l1 cfg.l2 obs t = some p)
    (h1 : s.inside = false ∧ p.dist_km ≤ cfg.radius_km) :
    scanStep cfg obs s t =
      { entries := s.entries ++ [evAt cfg p t], exits := s.exits, inside := true,
        latVar := round_val p.subLat, lonVar := round_val p.subLon,
        log := s.log ++ [(obs, t)] } := by
  unfold scanStep
  rw [hp]
  dsimp only
  rw [if_pos h1]

lemma scanStep_exit (cfg : DetectCfg) (obs : Observer) (s : ScanState) (t : Nat)
    (p : PropOut) (hp : cfg.propag cfg.l1 cfg.l2 obs t = some p)
    (h1 : ¬(s.inside = false ∧ p.dist_km ≤ cfg.radius_km))
    (h2 : s.inside = true ∧ cfg.radius_km < p.dist_km) :
    scanStep cfg obs s t =
      { entries := s.entries, exits := s.exits ++ [evAt cfg p t], inside := false,
        latVar := round_val p.subLat, lonVar := round_val p.subLon,
        log := s.log ++ [(obs, t)] } := by
  unfold scanStep
  rw [hp]
  dsimp only
  rw [if_neg h1, if_pos h2]

lemma scanStep_skip (cfg : DetectCfg) (obs : Observer) (s : ScanState) (t : Nat)
    (p : PropOut) (hp : cfg.propag cfg.l1 cfg.l2 obs t = some p)
    (h1 : ¬(s.inside = false ∧ p.dist_km ≤ cfg.radius_km))
    (h2 : ¬(s.inside = true ∧ cfg.radius_km < p.dist_km)) :
    scanStep cfg obs s t =
      { entries := s.entries, exits := s.exits, inside := s.inside,
        latVar := round_val p.subLat, lonVar := round_val p.subLon,
        log := s.log ++ [(obs, t)] } := by
  unfold scanStep
  rw [hp]
  dsimp only
  rw [if_neg h1, if_neg h2]

lemma concat_getElem?_cases {α : Type} {l : List α} {a b : α} {k : Nat}
    (h : (l ++ [a])[k]? = some b) :
    (k < l.length ∧ l[k]? = some b) ∨ (k = l.length ∧ b = a) := by
  rcases Nat.lt_trichotomy k l.length with hlt | heq | hgt
  · rw [List.getElem?_append_left hlt] at h
    exact Or.inl ⟨hlt, h⟩
  · subst heq
    rw [List.getElem?_concat_length] at h
    exact Or.inr ⟨rfl, (Option.some_inj.mp h).symm⟩
  · rw [List.getElem?_append_right (by omega)] at h
    rw [List.getElem?_eq_none (by simp; omega)] at h
    exact absurd h (by simp)

lemma scanStep_inv (cfg : DetectCfg) {b : Nat} (t : Nat) (hb : b ≤ t)
    (ht : ∃ i, t = cfg.now + 60 * i) {s : ScanState} (h : ScanInv cfg b s) :
    ScanInv cfg (t + 1) (scanStep cfg (obsOf cfg) s t) := by
  have hmono : ScanInv cfg (t + 1) s := inv_mono cfg (by omega) h
  cases hp : cfg.propag cfg.l1 cfg.l2 (obsOf cfg) t with
  | none => rw [scanStep_none cfg (obsOf cfg) s t hp]; exact hmono
  | some p =>
    by_cases h1 : s.inside = false ∧ p.dist_km ≤ cfg.radius_km
    · rw [scanStep_entry cfg (obsOf cfg) s t p hp h1]
      have hEX : s.entries.length = s.exits.length := by
        have hl := h.len
        rw [h1.1] at hl
        simpa using hl
      refine ⟨?_, ?_, ?_, ?_, ?_, ?_⟩
      · simp [hEX]
      · intro e he
        rcases List.mem_append.mp he with h' | h'
        · exact ⟨lt_of_lt_of_le (h.entOK e h').1 (by omega), (h.entOK e h').2⟩
        · rcases List.mem_singleton.mp h' with rfl
          exact ⟨Nat.lt_succ_self t, ht, evAt_qok cfg p t⟩
      · intro e he
        exact ⟨lt_of_lt_of_le (h.extOK e he).1 (by omega), (h.extOK e he).2⟩
      · intro k e x hke hkx
        have hk : k < s.exits.length := (List.getElem?_eq_some_iff.mp hkx).1
        rw [List.getElem?_append_left (by omega)] at hke
        exact h.pairLt k e x hke hkx
      · intro k x e hkx hke
        rcases concat_getElem?_cases hke with ⟨hlt, hke'⟩ | ⟨hkeq, rfl⟩
        · exact h.interLt k x e hkx hke'
        · have hx := (h.extOK x (List.getElem?_mem hkx)).1
          show x.instant < t
          omega
      · intro q hq
        rcases List.mem_append.mp hq with h' | h'
        · exact h.logObs q h'
        · rcases List.mem_singleton.mp h' with rfl
          rfl
    · by_cases h2 : s.inside = true ∧ cfg.radius_km < p.dist_km
      · rw [scanStep_exit cfg (obsOf cfg) s t p hp h1 h2]
        have hEX : s.entries.length = s.exits.length + 1 := by
          have hl := h.len
          rw [h2.1] at hl
          simpa using hl
        refine ⟨?_, ?_, ?_, ?_, ?_, ?_⟩
        · simp [hEX]
        · intro e he
          exact ⟨lt_of_lt_of_le (h.entOK e he).1 (by omega), (h.entOK e he).2⟩
        · intro e he
          rcases List.mem_append.mp he with h' | h'
          · exact ⟨lt_of_lt_of_le (h.extOK e h').1 (by omega), (h.extOK e h').2⟩
          · rcases List.mem_singleton.mp h' with rfl
            exact ⟨Nat.lt_succ_self t, ht, evAt_qok cfg p t⟩
        · intro k e x hke hkx
          rcases concat_getElem?_cases hkx with ⟨hlt, hkx'⟩ | ⟨hkeq, rfl⟩
          · exact h.pairLt k e x hke hkx'
          · have he' := (h.entOK e (List.getElem?_mem hke)).1
            show e.instant < t
            omega
        · intro k x e hkx hke
          have hk : k + 1 < s.entries.length := (List.getElem?_eq_some_iff.mp hke).1
          have hkex : k < s.exits.length := by omega
          rw [List.getElem?_append_left hkex] at hkx
          exact h.interLt k x e hkx hke
        · intro q hq
          rcases List.mem_append.mp hq with h' | h'
          · exact h.logObs q h'
          · rcases List.mem_singleton.mp h' with rfl
            rfl
      · rw [scanStep_skip cfg (obsOf cfg) s t p hp h1 h2]
        refine ⟨h.len, ?_, ?_, h.pairLt, h.interLt, ?_⟩
        · intro e he
          exact ⟨lt_of_lt_of_le (h.entOK e he).1 (by omega), (h.entOK e he).2⟩
        · intro e he
          exact ⟨lt_of_lt_of_le (h.extOK e he).1 (by omega), (h.extOK e he).2⟩
        · intro q hq
          rcases List.mem_append.mp hq with h' | h'
          · exact h.logObs q h'
          · rcases List.mem_singleton.mp h' with rfl
            rfl


lemma runScanAux_succ (cfg : DetectCfg) (n : Nat) :
    runScanAux cfg (n + 1)
      = scanStep cfg (obsOf cfg) (runScanAux cfg n) (gridTime cfg.now n) := by
  unfold runScanAux
  rw [List.range_succ, List.map_append, List.foldl_append]
  rfl

lemma runScanAux_inv (cfg : DetectCfg) (n : Nat) :
    ScanInv cfg (cfg.now + 60 * n) (runScanAux cfg n) := by
  induction n with
  | zero => exact inv_mono cfg (by omega) (inv_init cfg)
  | succ n ih =>
    rw [runScanAux_succ]
    have hstep := scanStep_inv cfg (gridTime cfg.now n)
      (by unfold gridTime; omega) ⟨n, rfl⟩ ih
    exact inv_mono cfg (by unfold gridTime; omega) hstep

lemma runScan_eq_aux (cfg : DetectCfg) : runScan cfg = runScanAux cfg (cfg.hours * 60) := rfl

lemma runScan_inv (cfg : DetectCfg) :
    ScanInv cfg (cfg.now + 60 * (cfg.hours * 60)) (runScan cfg) := by
  rw [runScan_eq_aux]
  exact runScanAux_inv cfg (cfg.hours * 60)

lemma zip_getElem?_iff {α β : Type} {l₁ : List α} {l₂ : List β} {k : Nat} {z : α × β} :
    (l₁.zip l₂)[k]? = some z ↔ l₁[k]? = some z.1 ∧ l₂[k]? = some z.2 := by
  induction l₁ generalizing l₂ k with
  | nil => simp
  | cons a l ih =>
    cases l₂ with
    | nil => simp
    | cons b l₂ =>
      cases k with
      | zero =>
        rcases z with ⟨za, zb⟩
        simp [List.zip_cons_cons, Prod.ext_iff]
      | succ k => simpa using ih

lemma pairPasses_getElem? {E X : List Event} {k : Nat} {r : PassRecord} :
    (pairPasses E X)[k]? = some r
      ↔ ∃ e x, E[k]? = some e ∧ X[k]? = some x ∧ r = mkRecord e x := by
  unfold pairPasses
  rw [List.getElem?_map]
  constructor
  · intro hr
    cases hz : (E.zip X)[k]? with
    | none => rw [hz] at hr; simp at hr
    | some z =>
      rw [hz] at hr
      rcases zip_getElem?_iff.mp hz with ⟨h₁, h₂⟩
      exact ⟨z.1, z.2, h₁, h₂, (Option.some_inj.mp hr).symm⟩
  · rintro ⟨e, x, h₁, h₂, rfl⟩
    have hz : (E.zip X)[k]? = some (e, x) := zip_getElem?_iff.mpr ⟨h₁, h₂⟩
    rw [hz]
    rfl

lemma detect_length (cfg : DetectCfg) :
    (detect_pass_pairs cfg).length
      = min (runScan cfg).entries.length (runScan cfg).exits.length := by
  unfold detect_pass_pairs pairPasses
  rw [List.length_map, List.length_zip]

/-- C3: PassRecords are formed by positional pairing — the detector output
is exactly `zip(entries, exits)` mapped through record construction, its
length is `min(|Entries|, |Exits|)`, the `k`-th record is built from the
`k`-th Entry and the `k`-th Exit (never nearest-timestamp matching), and
any trailing Entry with no paired Exit yields no record. -/
theorem positional_pairing (cfg : DetectCfg) :
    detect_pass_pairs cfg = pairPasses (runScan cfg).entries (runScan cfg).exits
    ∧ (detect_pass_pairs cfg).length
        = min (runScan cfg).entries.length (runScan cfg).exits.length
    ∧ (∀ (k : Nat) (r : PassRecord), (detect_pass_pairs cfg)[k]? = some r →
        ∃ e x, (runScan cfg).entries[k]? = some e ∧ (runScan cfg).exits[k]? = some x
          ∧ r = mkRecord e x)
    ∧ (∀ (k : Nat) (e x : Event), (runScan cfg).entries[k]? = some e →
        (runScan cfg).exits[k]? = some x →
        (detect_pass_pairs cfg)[k]? = some (mkRecord e x)) := by
  refine ⟨rfl, detect_length cfg, ?_, ?_⟩
  · intro k r hr
    exact pairPasses_getElem?.mp hr
  · intro k e x he hx
    exact pairPasses_getElem?.mpr ⟨e, x, he, hx, rfl⟩

/-- C4: in any detector run the events strictly alternate — `inside`
starts false, at every point of the scan the entry count exceeds the exit
count exactly by the `inside` flag, hence |Exits| ≤ |Entries| ≤
|Exits| + 1, the `k`-th Exit follows the `k`-th Entry, and the next Entry
follows the `k`-th Exit. -/
theorem entry_exit_alternation (cfg : DetectCfg) (n : Nat) :
    (runScanAux cfg 0).inside = false
    ∧ (runScanAux cfg n).entries.length
        = (runScanAux cfg n).exits.length + cond (runScanAux cfg n).inside 1 0
    ∧ (runScanAux cfg n).exits.length ≤ (runScanAux cfg n).entries.length
    ∧ (runScanAux cfg n).entries.length ≤ (runScanAux cfg n).exits.length + 1
    ∧ (∀ (k : Nat) (e x : Event), (runScanAux cfg n).entries[k]? = some e →
        (runScanAux cfg n).exits[k]? = some x → e.instant < x.instant)
    ∧ (∀ (k : Nat) (x e : Event), (runScanAux cfg n).exits[k]? = some x →
        (runScanAux cfg n).entries[k + 1]? = some e → x.instant < e.instant) := by
  have hi := runScanAux_inv cfg n
  refine ⟨rfl, hi.len, ?_, ?_, hi.pairLt, hi.interLt⟩
  · rw [hi.len]
    cases (runScanAux cfg n).inside <;> simp
  · rw [hi.len]
    cases (runScanAux cfg n).inside <;> simp

/-- C7: for every PassRecord with paired Entry instant T0 and Exit instant
T1, the recorded duration equals T1 − T0 in whole seconds, is a multiple
of the 60-second sample step, and is at least 60. -/
theorem duration_correct (cfg : DetectCfg) (k : Nat) (r : PassRecord)
    (hr : (detect_pass_pairs cfg)[k]? = some r) :
    ∃ e x, (runScan cfg).entries[k]? = some e ∧ (runScan cfg).exits[k]? = some x
      ∧ r.duration_sec = (x.instant : ℤ) - (e.instant : ℤ)
      ∧ 60 ≤ r.duration_sec ∧ r.duration_sec % 60 = 0 := by
  rcases pairPasses_getElem?.mp hr with ⟨e, x, he, hx, rfl⟩
  have hi := runScan_inv cfg
  have hpair := hi.pairLt k e x he hx
  rcases (hi.entOK e (List.getElem?_mem he)).2.1 with ⟨i, hei⟩
  rcases (hi.extOK x (List.getElem?_mem hx)).2.1 with ⟨j, hxj⟩
  refine ⟨e, x, he, hx, rfl, ?_, ?_⟩
  · show (60 : ℤ) ≤ (x.instant : ℤ) - (e.instant : ℤ)
    omega
  · show ((x.instant : ℤ) - (e.instant : ℤ)) % 60 = 0
    omega

/-- C10: throughout one `detect_pass_pairs` run, every slant-range
computation uses the observer ground point constructed once before the
scan from the caller-supplied latitude and longitude with elevation fixed
at 38 m; the loop-body reassignment of the locals `lat`/`lon` never
alters it. -/
theorem observer_frame_fixed (cfg : DetectCfg) :
    (∀ q ∈ (runScan cfg).log, q.1 = wgs84latlon cfg.lat cfg.lon 38)
    ∧ obsOf cfg = wgs84latlon cfg.lat cfg.lon 38
    ∧ (obsOf cfg).elevation_m = 38 :=
  ⟨fun q hq => (runScan_inv cfg).logObs q hq, rfl, rfl⟩

/-- C8: every float output field is quantized to exactly 3 decimal places
— `round3` always yields an integer multiple of 1/1000, every event field
stored during any scan is quantized or empty — and an un-computable value
becomes the empty value, rendering as the empty string, never as `0.0`,
`NaN`, or a null marker. -/
theorem rounding_and_empty (cfg : DetectCfg) (n : Nat) :
    (∀ q : ℚ, (round3 q * 1000).den = 1)
    ∧ round_val none = RVal.empty
    ∧ get_horizontal_velocity cfg.sq none = RVal.empty
    ∧ cell RVal.empty = ""
    ∧ ("" : String) ≠ "0.0" ∧ ("" : String) ≠ "NaN" ∧ ("" : String) ≠ "null"
    ∧ (∀ e ∈ (runScanAux cfg n).entries,
        qok e.lat ∧ qok e.lon ∧ qok e.alt ∧ qok e.vel)
    ∧ (∀ e ∈ (runScanAux cfg n).exits,
        qok e.lat ∧ qok e.lon ∧ qok e.alt ∧ qok e.vel) := by
  have hi := runScanAux_inv cfg n
  refine ⟨round3_den, rfl, rfl, rfl, by decide, by decide, by decide, ?_, ?_⟩
  · intro e he
    exact (hi.entOK e he).2.2
  · intro e he
    exact (hi.extOK e he).2.2

/-- Propagation outcome inside the radius, for concrete runs. -/
def pIn : PropOut :=
  { dist_km := 50, subLat := none, subLon := none, subAlt := none, velVec := none }

/-- Propagation outcome outside the radius, for concrete runs. -/
def pOut : PropOut :=
  { dist_km := 200, subLat := none, subLon := none, subAlt := none, velVec := none }

/-- Concrete detector configuration: inside at grid instants 0 and 120,
outside at instant 60, propagation failure elsewhere — the scan yields
2 Entries and 1 Exit, so exactly 1 PassRecord results and the trailing
Entry is dropped. -/
def cfgW : DetectCfg :=
  { sq := id, fmt := fun _ => "",
    propag := fun _ _ _ t =>
      if t = 0 then some pIn
      else if t = 60 then some pOut
      else if t = 120 then some pIn else none,
    name := "SAT", l1 := "1", l2 := "2", hours := 1, radius_km := 100,
    lat := 0, lon := 0, now := 0 }

/-- The single record the concrete run `cfgW` produces. -/
def rW : PassRecord := mkRecord (evAt cfgW pIn 0) (evAt cfgW pOut 60)

theorem positional_pairing_witness :
    ∃ e x, (runScan cfgW).entries[0]? = some e ∧ (runScan cfgW).exits[0]? = some x
      ∧ rW = mkRecord e x :=
  (positional_pairing cfgW).2.2.1 0 rW (by rfl)

theorem entry_exit_alternation_witness :
    (runScanAux cfgW 3).exits.length ≤ (runScanAux cfgW 3).entries.length
    ∧ (evAt cfgW pIn 0).instant < (evAt cfgW pOut 60).instant :=
  ⟨(entry_exit_alternation cfgW 3).2.2.1,
   (entry_exit_alternation cfgW 3).2.2.2.2.1 0 (evAt cfgW pIn 0) (evAt cfgW pOut 60)
     (by rfl) (by rfl)⟩

theorem duration_correct_witness :
    ∃ e x, (runScan cfgW).entries[0]? = some e ∧ (runScan cfgW).exits[0]? = some x
      ∧ rW.duration_sec = (x.instant : ℤ) - (e.instant : ℤ)
      ∧ 60 ≤ rW.duration_sec ∧ rW.duration_sec % 60 = 0 :=
  duration_correct cfgW 0 rW (by rfl)

theorem observer_frame_fixed_witness :
    ((obsOf cfgW, (0 : Nat)).1 = wgs84latlon cfgW.lat cfgW.lon 38)
    ∧ (obsOf cfgW).elevation_m = 38 :=
  ⟨(observer_frame_fixed cfgW).1 (obsOf cfgW, 0) (by
      have h : (runScan cfgW).log
          = [(obsOf cfgW, 0), (obsOf cfgW, 60), (obsOf cfgW, 120)] := rfl
      rw [h]
      exact List.mem_cons_self _ _),
   (observer_frame_fixed cfgW).2.2⟩

/-- Propagation outcome with a computable sub-point latitude and velocity
vector, for the rounding witness. -/
def p8 : PropOut :=
  { dist_km := 50, subLat := some (1/3), subLon := none, subAlt := none,
    velVec := some ⟨3, 4, 0⟩ }

/-- Concrete detector configuration producing one Entry whose latitude and
velocity fields are numeric. -/
def cfg8 : DetectCfg :=
  { sq := id, fmt := fun _ => "",
    propag := fun _ _ _ t => if t = 0 then some p8 else none,
    name := "SAT", l1 := "1", l2 := "2", hours := 1, radius_km := 100,
    lat := 0, lon := 0, now := 0 }

theorem rounding_and_empty_witness :
    qok (evAt cfg8 p8 0).lat ∧ qok (evAt cfg8 p8 0).lon
      ∧ qok (evAt cfg8 p8 0).alt ∧ qok (evAt cfg8 p8 0).vel :=
  (rounding_and_empty cfg8 1).2.2.2.2.2.2.2.1 (evAt cfg8 p8 0) (by
    have h : (runScanAux cfg8 1).entries = [evAt cfg8 p8 0] := rfl
    rw [h]
    exact List.mem_singleton.mpr rfl)

lemma timesGrid_head (now hours : Nat) (h : 0 < hours) :
    (timesGrid now hours).head? = some now := by
  unfold timesGrid
  rcases Nat.exists_eq_succ_of_ne_zero
      (Nat.mul_ne_zero (by omega) (by omega) : hours * 60 ≠ 0) with ⟨m, hm⟩
  rw [hm, List.range_succ_eq_map, List.map_cons]
  simp [gridTime]

lemma batch_foldl_nows (b : BatchCfg) :
    ∀ (tles : List (List String)) (acc : List PassRecord × List Nat),
      (tles.foldl (batchStep b) acc).2
        = acc.2 ++ (List.range (tles.countP (fun s => validTLE s))).map
            (fun k => b.clock (acc.2.length + k)) := by
  intro tles
  induction tles with
  | nil => intro acc; simp
  | cons t rest ih =>
    intro acc
    rw [List.foldl_cons, List.countP_cons]
    rcases t with _ | ⟨a, _ | ⟨c, _ | ⟨d, _ | ⟨f, tl⟩⟩⟩⟩
    · rw [show batchStep b acc [] = acc from rfl, ih acc]
      simp [validTLE]
    · rw [show batchStep b acc [a] = acc from rfl, ih acc]
      simp [validTLE]
    · rw [show batchStep b acc [a, c] = acc from rfl, ih acc]
      simp [validTLE]
    · rw [show batchStep b acc [a, c, d]
          = (acc.1 ++ detect_pass_pairs (mkDetectCfg b a c d (b.clock acc.2.length)),
             acc.2 ++ [b.clock acc.2.length]) from rfl, ih]
      have hv : (if validTLE [a, c, d] = true then 1 else 0) = 1 := by
        simp [validTLE]
      rw [hv, List.range_succ_eq_map, List.map_cons, List.map_map,
        List.append_assoc, List.singleton_append]
      simp only [Nat.add_zero]
      congr 1
      congr 1
      apply List.map_congr_left
      intro k hk
      simp only [Function.comp, List.length_append, List.length_singleton]
      congr 1
      omega
    · rw [show batchStep b acc (a :: c :: d :: f :: tl) = acc from rfl, ih acc]
      simp [validTLE]

/-- Concrete batch configuration whose wall clock advances one second per
`ts.now()` read and whose propagator always fails. -/
def bW : BatchCfg :=
  { sq := id, fmt := fun _ => "", propag := fun _ _ _ _ => none,
    clock := fun k => k, hours := 12, radius_km := 1000, lat := 0, lon := 0 }

/-- Concrete batch configuration whose wall clock never advances. -/
def bC : BatchCfg :=
  { sq := id, fmt := fun _ => "", propag := fun _ _ _ _ => none,
    clock := fun _ => 7, hours := 12, radius_km := 1000, lat := 0, lon := 0 }

/-- C1 counterexample: with a wall clock that advances between the
per-satellite `ts.now()` reads (`clock k = k`, one tick per read), a batch
of two valid element sets anchors its two detector runs at instants 0 and
1, so their first grid samples differ — the batch is not anchored to one
shared now and the first sample instants are not identical. -/
theorem batch_shared_now_cex :
    (runBatch bW [["A", "1", "2"], ["B", "1", "2"]]).2 = [0, 1]
    ∧ (timesGrid 0 12).head? = some 0
    ∧ (timesGrid 1 12).head? = some 1
    ∧ (0 : Nat) ≠ 1 := by
  refine ⟨?_, timesGrid_head 0 12 (by omega), timesGrid_head 1 12 (by omega), by omega⟩
  rw [show runBatch bW [["A", "1", "2"], ["B", "1", "2"]]
      = List.foldl (batchStep bW) ([], []) [["A", "1", "2"], ["B", "1", "2"]] from rfl]
  rw [batch_foldl_nows bW [["A", "1", "2"], ["B", "1", "2"]] ([], [])]
  decide

/-- C1 amended: each per-satellite detector run anchors its time grid to
its own wall-clock `now` read at the start of that run — the `k`-th valid
element set of the batch uses the `k`-th clock reading, and the first
sample instant of a run anchored at `now` is `now` itself — so the first
sample instants of a batch coincide exactly when the clock readings do,
not unconditionally. -/
theorem batch_now_per_run (b : BatchCfg) (tles : List (List String)) (h : 0 < b.hours) :
    (runBatch b tles).2
      = (List.range (tles.countP (fun s => validTLE s))).map b.clock
    ∧ (∀ now : Nat, (timesGrid now b.hours).head? = some now)
    ∧ ((∀ i j : Nat, b.clock i = b.clock j) →
        ∀ m ∈ (runBatch b tles).2, m = b.clock 0) := by
  have hb := batch_foldl_nows b tles ([], [])
  have hmain : (runBatch b tles).2
      = (List.range (tles.countP (fun s => validTLE s))).map b.clock := by
    rw [show runBatch b tles = tles.foldl (batchStep b) ([], []) from rfl, hb]
    simp
  refine ⟨hmain, fun now => timesGrid_head now b.hours h, ?_⟩
  intro hc m hm
  rw [hmain] at hm
  rcases List.mem_map.mp hm with ⟨k, _, rfl⟩
  exact hc k 0

theorem batch_now_per_run_witness :
    (runBatch bC [["A", "1", "2"], ["B", "1", "2"]]).2
      = (List.range
          (List.countP (fun s => validTLE s) [["A", "1", "2"], ["B", "1", "2"]])).map bC.clock
    ∧ (timesGrid 7 bC.hours).head? = some 7
    ∧ (∀ m ∈ (runBatch bC [["A", "1", "2"], ["B", "1", "2"]]).2, m = bC.clock 0) :=
  ⟨(batch_now_per_run bC [["A", "1", "2"], ["B", "1", "2"]] (by decide)).1,
   (batch_now_per_run bC [["A", "1", "2"], ["B", "1", "2"]] (by decide)).2.1 7,
   (batch_now_per_run bC [["A", "1", "2"], ["B", "1", "2"]] (by decide)).2.2
     (fun _ _ => rfl)⟩

end Webspace
